import Mathlib

/-!
Shallow embedding of the C3D binary codec from `src/c3d.py` (py-c3d).

Modelling conventions:
* a byte stream is a `List ℕ` whose entries are octet values;
* Python integers are `ℤ` (or `ℕ` where the source value is a count);
* IEEE 754 floating point is idealised as exact rational arithmetic `ℚ`;
* fallible code (struct.unpack underflow, assertions, `KeyError`,
  `ZeroDivisionError`) is modelled with `Option` / `Except`;
* Python byte strings stay raw byte lists; `str.upper()` is the ASCII byte
  map `upperBytes` (the source round-trips names through UTF-8, which is the
  identity on the ASCII names exercised here);
* the `Manager.groups` dict, which stores the *same* `Group` object under the
  group's numeric id and under its name, is modelled as an arena of groups
  plus a key list mapping dict keys to arena indices, so that aliasing and
  the one-value-per-key behaviour of `dict.values()` are both preserved.
-/

namespace C3D

/-- Signed reinterpretation of one octet (struct format `b`). -/
def int8 (b : ℕ) : ℤ := if b < 128 then (b : ℤ) else (b : ℤ) - 256

/-- Little-endian signed 16-bit value of two octets (struct format `<h`). -/
def int16LE (b0 b1 : ℕ) : ℤ :=
  if b0 + 256 * b1 < 32768 then ((b0 + 256 * b1 : ℕ) : ℤ)
  else ((b0 + 256 * b1 : ℕ) : ℤ) - 65536

/-- ASCII upper-casing of one byte (`str.upper()` restricted to ASCII). -/
def upperByte (b : ℕ) : ℕ := if 97 ≤ b ∧ b ≤ 122 then b - 32 else b

/-- ASCII upper-casing of a byte string. -/
def upperBytes (bs : List ℕ) : List ℕ := bs.map upperByte

/-- Truncation toward zero of a rational, mirroring C casts used by
`ndarray.astype` on floating-point input. -/
def ratTrunc (q : ℚ) : ℤ := if q < 0 then -⌊-q⌋ else ⌊q⌋

/-- `astype(np.uint8)`: truncate toward zero and wrap modulo 2^8. -/
def npUint8 (q : ℚ) : ℕ := (ratTrunc q % 256).toNat

/-- `astype(np.uint16)`: truncate toward zero and wrap modulo 2^16. -/
def npUint16 (q : ℚ) : ℕ := (ratTrunc q % 65536).toNat

/-- Python byte-string slicing `bs[k:]` with a possibly negative start
index: a negative index counts from the end of the list, clamped at 0. -/
def pySlice (k : ℤ) (l : List ℕ) : List ℕ :=
  if 0 ≤ k then l.drop k.toNat else l.drop ((l.length : ℤ) + k).toNat

/-- Little-endian unsigned 16-bit field at byte offset `i`. -/
def u16at (bs : List ℕ) (i : ℕ) : ℕ := bs.getD i 0 + 256 * bs.getD (i + 1) 0

/-- Little-endian 32-bit field (raw bit pattern) at byte offset `i`. -/
def u32at (bs : List ℕ) (i : ℕ) : ℕ := u16at bs i + 65536 * u16at bs (i + 2)

/-! ### Frame decoding (`Reader.read_frames`, src/c3d.py lines 852-876) -/

/-- Camera-observation bit count of the decoder,
`sum((c & (1 << k)) >> k for k in range(8, 17))` (line 866). -/
def camSum (c : ℕ) : ℕ := (Finset.Icc 8 16).sum fun k => (c &&& (1 <<< k)) >>> k

/-- Decoding of the 4th raw value of a point record (lines 858-866):
`valid = raw[:, 3] > -1`; invalid points get residual-error and camera-count
`-1`; for valid points `c = raw[:, 3].astype(np.uint16)`, the residual error
is `(c & 0xff) * scale` and the camera count is `camSum c`. -/
def decodeFourth (raw : ℚ) (scale : ℚ) : ℚ × ℚ :=
  if -1 < raw then
    let c : ℕ := npUint16 raw
    (((c &&& 255 : ℕ) : ℚ) * scale, (camSum c : ℚ))
  else (-1, -1)

/-- Decoding of one point record (lines 853-866).  `raw` holds the four raw
values of the record as exact rationals (for integer storage they are the
stored int16 values, for float storage the stored float32 values);
`point_scale = [scale, 1][is_float]`. -/
def readPoint (is_float : Bool) (scale : ℚ) (raw : ℚ × ℚ × ℚ × ℚ) :
    ℚ × ℚ × ℚ × ℚ × ℚ :=
  let point_scale : ℚ := if is_float then 1 else scale
  let ec := decodeFourth raw.2.2.2 scale
  (raw.1 * point_scale, raw.2.1 * point_scale, raw.2.2.1 * point_scale, ec.1, ec.2)

/-! ### Frame encoding (`Writer._write_frames`, src/c3d.py lines 968-998) -/

/-- Encoding of one point record in float storage (lines 984-993).
`valid = points[:, 3] > -1`; valid coordinates are divided by the *signed*
configured `point_scale_factor` (line 987); the 4th value packs
`(points[:, 4].astype(np.uint8) << 8) | (points[:, 3]/scale).astype(np.uint16)`
(lines 988-991).  NumPy keeps dtype `uint8` under `<< 8` (the shift count 8
fits in `uint8`), so the shifted camera byte wraps modulo 256 before the
bitwise or widens to `uint16`; the model makes that wrap explicit.  For
invalid points the source only assigns `raw[~valid, 3] = -1` and leaves the
coordinate entries of the `np.empty` buffer unspecified; the model writes 0
there. -/
def writePointF (point_scale_factor : ℚ) (p : ℚ × ℚ × ℚ × ℚ × ℚ) :
    ℚ × ℚ × ℚ × ℚ :=
  let scale := |point_scale_factor|
  if -1 < p.2.2.2.1 then
    (p.1 / point_scale_factor, p.2.1 / point_scale_factor,
     p.2.2.1 / point_scale_factor,
     (((npUint8 p.2.2.2.2 * 256) % 256 ||| npUint16 (p.2.2.2.1 / scale) : ℕ) : ℚ))
  else (0, 0, 0, -1)

/-- Analog values emitted for one frame (lines 995-997):
`analog = array.array(point_format); analog.extend(analog); analog.tofile(handle)`.
The assignment rebinds the name `analog` to a fresh empty array, shadowing the
frame's analog data, and `extend` then extends that empty array with itself. -/
def writtenAnalog (frameAnalog : List ℚ) : List ℚ :=
  let analogArr : List ℚ := []
  analogArr ++ analogArr

/-- Values emitted for one buffered frame in float storage (lines 984-997):
the flattened point records followed by the emitted analog values. -/
def writeFrameF (point_scale_factor : ℚ) (points : List (ℚ × ℚ × ℚ × ℚ × ℚ))
    (analog : List ℚ) : List ℚ :=
  ((points.map fun p =>
      let r := writePointF point_scale_factor p
      [r.1, r.2.1, r.2.2.1, r.2.2.2]).flatten) ++ writtenAnalog analog

/-! ### Parameters (`Param`, src/c3d.py lines 170-271) -/

/-- A single named parameter (class `Param`). -/
structure Param where
  name : List ℕ
  desc : List ℕ
  bytes_per_element : ℤ
  dimensions : List ℕ
  bytes : List ℕ
deriving DecidableEq

/-- `Param.num_elements` (lines 210-216). -/
def Param.num_elements (p : Param) : ℕ := p.dimensions.prod

/-- `Param.total_bytes` (lines 218-221). -/
def Param.total_bytes (p : Param) : ℕ := p.num_elements * p.bytes_per_element.natAbs

/-- `Param.binary_size` (lines 223-233). -/
def Param.binary_size (p : Param) : ℕ :=
  1 + 2 + 1 + p.name.length + 1 + 1 + p.dimensions.length + p.total_bytes
    + 1 + p.desc.length

/-- `Param.read` (lines 258-271): element width byte, dimension-count byte,
dimension bytes, `total_bytes` payload bytes, description-length byte and
description bytes; returns the parameter and the unread remainder of the
stream.  `none` models a `struct.error` from reading past the end. -/
def paramRead (name : List ℕ) (bs : List ℕ) : Option (Param × List ℕ) :=
  match bs with
  | b0 :: b1 :: rest =>
    let bpe := int8 b0
    if rest.length < b1 then none
    else
      let dims := rest.take b1
      let r2 := rest.drop b1
      let total := dims.prod * bpe.natAbs
      let pbytes := r2.take total
      match r2.drop total with
      | [] => none
      | szb :: r4 =>
        let desc := if szb = 0 then [] else r4.take szb
        some (⟨name, desc, bpe, dims, pbytes⟩, r4.drop szb)
  | _ => none

/-! ### Groups and the metadata store (`Group`, `Manager`) -/

/-- A parameter group (class `Group`, lines 382-399).  A freshly constructed
placeholder group has `name = None` and `desc = None`. -/
structure Group where
  name : Option (List ℕ) := none
  desc : Option (List ℕ) := none
  params : List (List ℕ × Param) := []
deriving DecidableEq

instance : Inhabited Group := ⟨{}⟩

/-- Assignment into an insertion-ordered Python dict: an existing key keeps
its position, a new key is appended. -/
def assocSet {α β : Type} [DecidableEq α] : List (α × β) → α → β → List (α × β)
  | [], k, v => [(k, v)]
  | (k1, v1) :: t, k, v =>
    if k1 = k then (k, v) :: t else (k1, v1) :: assocSet t k v

/-- Lookup in an insertion-ordered Python dict. -/
def assocGet {α β : Type} [DecidableEq α] : List (α × β) → α → Option β
  | [], _ => none
  | (k1, v1) :: t, k => if k1 = k then some v1 else assocGet t k

/-- `Group.add_param` (lines 421-432): `params[name.upper()] = Param(name.upper(), ...)`. -/
def Group.add_param (g : Group) (p : Param) : Group :=
  let key := upperBytes p.name
  let p2 : Param := { p with name := key }
  { g with params := assocSet g.params key p2 }

/-- `Group.binary_size` (lines 434-441).  The source calls
`len(self.name.encode)` and `len(self.desc.encode)`, which fault on an
unnamed placeholder; only named groups are sized by the source, so `none`
is read as the empty string here. -/
def Group.binary_size (g : Group) : ℕ :=
  1 + 1 + (g.name.getD []).length + 2 + 1 + (g.desc.getD []).length
    + (g.params.map fun kv => kv.2.binary_size).sum

/-- A key of the `Manager.groups` dict: a numeric group id or a name. -/
inductive GKey
  | id (n : ℤ)
  | nm (s : List ℕ)
deriving DecidableEq

/-- The `Manager.groups` dict: an arena of shared `Group` objects and the
dict's key list in insertion order, each key resolving to an arena index. -/
structure DirState where
  arena : List Group
  keys : List (GKey × ℕ)
deriving DecidableEq

/-- A fresh `Manager` with no groups. -/
def emptyDir : DirState := ⟨[], []⟩

/-- `self.groups.get(k)` / `k in self.groups`. -/
def lookupKey (st : DirState) (k : GKey) : Option ℕ := assocGet st.keys k

/-- `self.groups[k] = g` where `g` is the group at arena index `i`. -/
def keysSet (st : DirState) (k : GKey) (i : ℕ) : DirState :=
  { st with keys := assocSet st.keys k i }

/-- In-place mutation of the shared group object at arena index `i`,
visible through every dict key that resolves to `i`. -/
def updateGroup (st : DirState) (i : ℕ) (f : Group → Group) : DirState :=
  { st with arena := st.arena.set i (f (st.arena.getD i default)) }

/-- `self.groups.setdefault(group_id, Group())` (line 765): return the index
of the group under the id key, creating an unnamed placeholder if absent. -/
def setdefaultGroup (st : DirState) (gid : ℤ) : DirState × ℕ :=
  match lookupKey st (.id gid) with
  | some i => (st, i)
  | none =>
    ({ arena := st.arena ++ [{}],
       keys := assocSet st.keys (.id gid) st.arena.length }, st.arena.length)

/-- The `KeyError` raised by `Manager.add_group`. -/
inductive KeyError
  | id (n : ℤ)
  | nm (s : List ℕ)
deriving DecidableEq

/-- `Manager.add_group` (lines 556-584): raise `KeyError` on a duplicate id
or (upper-cased) name, otherwise store one new `Group` under the name key
and then under the id key. -/
def addGroup (st : DirState) (gid : ℤ) (name desc : List ℕ) :
    Except KeyError DirState :=
  if (lookupKey st (.id gid)).isSome then .error (.id gid)
  else
    let uname := upperBytes name
    if (lookupKey st (.nm uname)).isSome then .error (.nm uname)
    else .ok
      { arena := st.arena ++ [⟨some uname, some desc, []⟩],
        keys := assocSet (assocSet st.keys (.nm uname) st.arena.length)
                  (.id gid) st.arena.length }

/-- The values of the `groups` dict, one per key (`self.groups.values()`);
a group indexed under both its id and its name appears once per key. -/
def dictValues (st : DirState) : List Group :=
  st.keys.map fun kv => st.arena.getD kv.2 default

/-- `Manager.parameter_blocks` (lines 657-660):
`int(np.ceil((4. + sum(g.binary_size() for g in self.groups.values())) / 512))`,
with the float ceiling taken exactly. -/
def parameter_blocks (st : DirState) : ℕ :=
  (4 + ((dictValues st).map Group.binary_size).sum + 511) / 512

/-- The directory byte size with every group counted exactly once, the
quantity named by the specification (`4 + Σ group.binary_size()`). -/
def dirSizeOnce (st : DirState) : ℕ :=
  4 + (st.arena.map Group.binary_size).sum

/-- `Writer.write` line 1080: `self.header.data_block = 2 + blocks`. -/
def writerDataBlock (st : DirState) : ℕ := 2 + parameter_blocks st

/-! ### Parameter directory decoding (`Reader.__init__`, lines 751-782) -/

/-- Result of one pass of the directory `while bytes:` loop. -/
inductive DirCont
  | halt (st : DirState)
  | more (st : DirState) (bs : List ℕ)
deriving DecidableEq

/-- One iteration of the directory decoding loop (lines 751-782): read the
signed name-length byte `L` and group-id byte `G`, stop when either is 0,
read the upper-cased name and the signed 16-bit offset, process the record
(parameter record for `G > 0`, group record for `G < 0`), and slice the
remaining bytes at `2 + |L| + offset` — the navigation discards how many
bytes the payload parse consumed.  `none` models an uncaught exception. -/
def dirStep (st : DirState) (bs : List ℕ) : Option DirCont :=
  match bs with
  | [] => some (.halt st)
  | [_] => none
  | b0 :: b1 :: rest =>
    let L := int8 b0
    let G := int8 b1
    if G = 0 ∨ L = 0 then some (.halt st)
    else
      let nameLen := L.natAbs
      match rest.drop nameLen with
      | o0 :: o1 :: body =>
        let name := upperBytes (rest.take nameLen)
        let off := int16LE o0 o1
        let nextBytes := pySlice (2 + (nameLen : ℤ) + off) (b0 :: b1 :: rest)
        if 0 < G then
          match paramRead name body with
          | none => none
          | some (p, _) =>
            let si := setdefaultGroup st G
            some (.more (updateGroup si.1 si.2 fun g => g.add_param p) nextBytes)
        else
          let gid : ℤ := |G|
          match body with
          | [] => none
          | szb :: r2 =>
            let desc := if szb = 0 then [] else r2.take szb
            match lookupKey st (.id gid) with
            | some i =>
              some (.more
                (keysSet
                  (updateGroup st i fun g =>
                    { g with name := some name, desc := some desc })
                  (.nm name) i)
                nextBytes)
            | none =>
              match addGroup st gid name desc with
              | .error _ => none
              | .ok st1 => some (.more st1 nextBytes)
      | _ => none

/-- The directory decoding loop, fuelled (the source can loop forever on a
record whose offset field points back at the record itself). -/
def runDir : ℕ → DirState → List ℕ → Option DirState
  | 0, _, _ => none
  | fuel + 1, st, bs =>
    match dirStep st bs with
    | none => none
    | some (.halt st1) => some st1
    | some (.more st1 bs1) => runDir fuel st1 bs1

/-- A directory byte stream with two parameter records (names `PA`, `PB`,
scalar int16 payloads) under group id `g` followed by the group record
(name `GRP`, description `[d1, d2]`) for the same id, then a terminator. -/
def c7bytes (g p1 p2 p3 p4 d1 d2 : ℕ) : List ℕ :=
  [2, g, 80, 65, 7, 0, 2, 0, p1, p2, 0,
   2, g, 80, 66, 7, 0, 2, 0, p3, p4, 0,
   3, 256 - g, 71, 82, 80, 5, 0, 2, d1, d2,
   0, 0]

/-- The store produced by decoding `c7bytes`: a single shared group holding
both parameters, indexed under the id and under the name `GRP`. -/
def c7final (g p1 p2 p3 p4 d1 d2 : ℕ) : DirState :=
  { arena := [⟨some [71, 82, 80], some [d1, d2],
      [([80, 65], ⟨[80, 65], [], 2, [], [p1, p2]⟩),
       ([80, 66], ⟨[80, 66], [], 2, [], [p3, p4]⟩)]⟩],
    keys := [(.id (g : ℤ), 0), (.nm [71, 82, 80], 0)] }

/-! ### Header decoding (`Header.read`, src/c3d.py lines 132-167) -/

/-- Header fields in the order of `struct` format `<BBHHHHHfHHf270sHH214s`.
The two float32 fields are kept as raw 32-bit patterns; no claim depends on
their numeric interpretation. -/
structure Header where
  parameter_block : ℕ
  point_count : ℕ
  analog_count : ℕ
  first_frame : ℕ
  last_frame : ℕ
  max_gap : ℕ
  scale_factor_bits : ℕ
  data_block : ℕ
  sample_per_frame : ℕ
  frame_rate_bits : ℕ
  long_event_labels : ℕ
  label_block : ℕ
deriving DecidableEq

/-- The fatal decoding failure of the header magic-byte check. -/
inductive FormatError
  | badMagic (m : ℕ)
deriving DecidableEq

/-- `Header.read` (lines 150-167): consume exactly 512 bytes from the start
of the stream, unpack the fields, and fail when the magic byte at offset 1
is not 80.  The first component is `none` when fewer than 512 bytes are
available (`struct.error`); the second component is the unread remainder of
the stream. -/
def headerRead (bs : List ℕ) : Option (Except FormatError Header) × List ℕ :=
  (if 512 ≤ bs.length then
    some (if bs.getD 1 0 = 80 then
      .ok
        { parameter_block := bs.getD 0 0
          point_count := u16at bs 2
          analog_count := u16at bs 4
          first_frame := u16at bs 6
          last_frame := u16at bs 8
          max_gap := u16at bs 10
          scale_factor_bits := u32at bs 12
          data_block := u16at bs 16
          sample_per_frame := u16at bs 18
          frame_rate_bits := u32at bs 20
          long_event_labels := u16at bs 294
          label_block := u16at bs 296 }
    else .error (.badMagic (bs.getD 1 0)))
  else none, bs.drop 512)

/-! ### Metadata consistency check (`Manager.check_metadata`, lines 516-554) -/

/-- The header fields consulted by `check_metadata`. -/
structure HeaderView where
  point_count : ℕ
  scale_factor : ℚ
  frame_rate : ℚ
  analog_count : ℕ
  data_block : ℕ

/-- The directory parameters consulted by `check_metadata`; `none` means the
parameter is absent from the directory. -/
structure DirView where
  point_used : Option ℕ
  point_scale : Option ℚ
  point_rate : Option ℚ
  analog_used : Option ℕ
  analog_rate : Option ℚ
  point_data_start : Option ℕ

/-- The `InconsistentMetadataError` of the specification: each constructor
carries both conflicting values of one check. -/
inductive MetaError
  | pointCount (hdr par : ℕ)
  | scaleFac (hdr par : ℚ)
  | frameRate (hdr par : ℚ)
  | analogCount (hdr : ℕ) (par : ℚ)
  | dataStart (hdr par : ℕ)

/-- `Manager.check_metadata` (lines 516-554).  The checks run in source
order; `points_per_frame`, `scale_factor`, `frame_rate` and the
`POINT:DATA_START` lookup have no default, so a missing parameter is an
uncaught exception (`none`); `analog_per_frame` and `analog_frame_rate`
default to 0 when absent (lines 673-685); a zero point rate makes the
analog reconciliation raise `ZeroDivisionError` (`none`).  The missing
parameter warnings of lines 551-554 are non-fatal and not modelled. -/
def checkMetadata (h : HeaderView) (d : DirView) : Option (Except MetaError Unit) :=
  match d.point_used with
  | none => none
  | some pu =>
    if h.point_count ≠ pu then some (.error (.pointCount h.point_count pu))
    else
      match d.point_scale with
      | none => none
      | some sc =>
        if h.scale_factor ≠ sc then some (.error (.scaleFac h.scale_factor sc))
        else
          match d.point_rate with
          | none => none
          | some fr =>
            if h.frame_rate ≠ fr then some (.error (.frameRate h.frame_rate fr))
            else if fr = 0 then none
            else
              let apf : ℚ := ((d.analog_used.getD 0 : ℕ) : ℚ) * (d.analog_rate.getD 0) / fr
              if (h.analog_count : ℚ) ≠ apf then
                some (.error (.analogCount h.analog_count apf))
              else
                match d.point_data_start with
                | none => none
                | some ds =>
                  if h.data_block ≠ ds then some (.error (.dataStart h.data_block ds))
                  else some (.ok ())

/-! ### Helper lemmas -/

/-- One summand of `camSum` is the indicator of the corresponding bit. -/
theorem bitTerm (c k : ℕ) : (c &&& (1 <<< k)) >>> k = (c.testBit k).toNat := by
  rw [Nat.shiftLeft_eq, one_mul, Nat.and_two_pow, Nat.shiftRight_eq_div_pow,
    Nat.mul_div_cancel _ (Nat.two_pow_pos k)]

/-- `camSum` counts the set bits among bit positions 8 through 16. -/
theorem camSum_eq_card (c : ℕ) :
    camSum c = ((Finset.Icc 8 16).filter fun k => c.testBit k).card := by
  unfold camSum
  rw [Finset.card_filter]
  refine Finset.sum_congr rfl fun k _ => ?h
  rw [bitTerm]
  cases h : c.testBit k <;> simp

/-- A 16-bit value has no bit at position 16, so `camSum` is at most 8. -/
theorem camSum_le_eight (c : ℕ) (hc : c < 65536) : camSum c ≤ 8 := by
  rw [camSum_eq_card]
  have h2p : c < 2 ^ 16 := by simpa using hc
  have h16 : c.testBit 16 = false := Nat.testBit_eq_false_of_lt h2p
  calc ((Finset.Icc 8 16).filter fun k => c.testBit k).card
      ≤ (Finset.Icc 8 15).card := by
        apply Finset.card_le_card
        intro k hk
        simp only [Finset.mem_filter, Finset.mem_Icc] at hk ⊢
        rcases hk with ⟨⟨hk1, hk2⟩, hk3⟩
        refine ⟨hk1, ?h⟩
        by_contra hgt
        have hk16 : k = 16 := by omega
        rw [hk16, h16] at hk3
        exact Bool.false_ne_true hk3
    _ = 8 := by rw [Nat.card_Icc]

/-- Truncation toward zero is the identity on integers. -/
theorem ratTrunc_intCast (n : ℤ) : ratTrunc (n : ℚ) = n := by
  unfold ratTrunc
  split
  · rw [← Int.cast_neg, Int.floor_intCast, neg_neg]
  · rw [Int.floor_intCast]

/-- Looking up the key just assigned returns the assigned value. -/
theorem assocGet_set_self {α β : Type} [DecidableEq α]
    (l : List (α × β)) (k : α) (v : β) : assocGet (assocSet l k v) k = some v := by
  induction l with
  | nil => simp [assocSet, assocGet]
  | cons hd t ih =>
    obtain ⟨k1, v1⟩ := hd
    by_cases hk : k1 = k
    · simp [assocSet, hk, assocGet]
    · simp [assocSet, hk, assocGet, ih]

/-- Assigning one key leaves lookups of other keys unchanged. -/
theorem assocGet_set_ne {α β : Type} [DecidableEq α]
    (l : List (α × β)) (k k1 : α) (v : β) (h : k1 ≠ k) :
    assocGet (assocSet l k v) k1 = assocGet l k1 := by
  induction l with
  | nil =>
    simp only [assocSet, assocGet]
    rw [if_neg fun hx => h hx.symm]
  | cons hd t ih =>
    obtain ⟨k2, v2⟩ := hd
    by_cases hk : k2 = k
    · subst hk
      simp only [assocSet, if_pos rfl, assocGet]
      rw [if_neg fun hx => h hx.symm, if_neg fun hx => h hx.symm]
    · simp only [assocSet, if_neg hk, assocGet]
      by_cases hk1 : k2 = k1
      · rw [if_pos hk1, if_pos hk1]
      · rw [if_neg hk1, if_neg hk1]
        exact ih

/-! ### Claim theorems -/

/-- Claim C1 (code_bug evidence): at the writer's default configuration
`point_scale_factor = -1.0` (float storage), encoding the valid point
`(1, 2, 3)` with residual error `1/2` seen by 3 cameras and decoding the
produced record yields the *negated* coordinates `(-1, -2, -3)` — the
encoder divides by the signed scale factor while the decoder multiplies by
its magnitude — so the claimed exact float round-trip fails. -/
theorem c1_roundtrip_bug :
    readPoint true 1 (writePointF (-1) (1, 2, 3, 1/2, 3)) = (-1, -2, -3, 0, 0) ∧
    ((-1 : ℚ) ≠ 1) := by
  have h0 : ratTrunc ((1:ℚ)/2 / |(-1:ℚ)|) = 0 := by
    rw [show ((1:ℚ)/2 / |(-1:ℚ)|) = 1/2 by norm_num]
    unfold ratTrunc
    rw [if_neg (by norm_num), Int.floor_eq_iff]
    norm_num
  have hw : writePointF (-1) (1, 2, 3, 1/2, 3) = (-1, -2, -3, 0) := by
    unfold writePointF
    rw [if_pos (by norm_num : (-1:ℚ) < (1, 2, 3, (1:ℚ)/2, 3).2.2.2.1)]
    norm_num [npUint8, npUint16, ratTrunc, h0]
  have hcs : camSum 0 = 0 := by decide
  have hr : readPoint true 1 (-1, -2, -3, 0) = (-1, -2, -3, 0, 0) := by
    unfold readPoint decodeFourth
    norm_num [npUint16, ratTrunc, hcs]
  exact ⟨hw ▸ hr, by norm_num⟩

/-- Claim C2 (counterexample): the stored 4th value `-100` (unsigned 16-bit
reinterpretation 65436, not the 65535 sentinel) is nevertheless decoded as
invalid — both outputs are `-1` — whereas the claim demands residual error
`(65436 & 0xFF) × scale = 156` for every value other than 65535. -/
theorem c2_counterexample :
    decodeFourth ((-100 : ℤ) : ℚ) 1 = (-1, -1) ∧
    ((-100 : ℤ) % 65536 = 65436) ∧ (65436 : ℕ) ≠ 65535 ∧
    (-1 : ℚ) ≠ (((65436 &&& 255 : ℕ) : ℚ)) * 1 := by
  refine ⟨by norm_num [decodeFourth], by decide, by decide, ?h⟩
  rw [show (65436 &&& 255 : ℕ) = 156 from by decide]
  norm_num

/-- Claim C2 (amended): for an integer-stored 4th raw value, the decoder
treats the point as invalid exactly when the unsigned 16-bit
reinterpretation is at least 32768 (the stored signed value is negative,
`raw > -1` fails), not only at the all-ones sentinel 65535; otherwise the
residual error is `(c & 0xFF) × scale` and the camera count is the number
of set bits among bit positions 8 through 16 of `c`. -/
theorem c2_amended (raw : ℤ) (scale : ℚ) (h1 : -32768 ≤ raw) (h2 : raw ≤ 32767) :
    (32768 ≤ raw % 65536 → decodeFourth (raw : ℚ) scale = (-1, -1)) ∧
    (raw % 65536 < 32768 →
      decodeFourth (raw : ℚ) scale =
        ((((raw % 65536).toNat &&& 255 : ℕ) : ℚ) * scale,
         ((((Finset.Icc 8 16).filter fun k =>
            ((raw % 65536).toNat).testBit k).card : ℕ) : ℚ))) := by
  constructor
  · intro hm
    have hneg : raw ≤ -1 := by omega
    have hnot : ¬(-1 < (raw : ℚ)) := by
      rw [not_lt]
      exact_mod_cast hneg
    unfold decodeFourth
    rw [if_neg hnot]
  · intro hm
    have hpos : (-1 : ℤ) < raw := by omega
    have hposq : (-1 : ℚ) < (raw : ℚ) := by exact_mod_cast hpos
    unfold decodeFourth
    rw [if_pos hposq]
    show (_, ((camSum (npUint16 (raw : ℚ)) : ℕ) : ℚ)) = _
    unfold npUint16
    rw [ratTrunc_intCast, camSum_eq_card]

/-- Witness for the amended claim C2 at the stored value 300 with scale 2. -/
theorem c2_amended_witness :
    decodeFourth ((300 : ℤ) : ℚ) 2 =
      (((((300 : ℤ) % 65536).toNat &&& 255 : ℕ) : ℚ) * 2,
       ((((Finset.Icc 8 16).filter fun k =>
          (((300 : ℤ) % 65536).toNat).testBit k).card : ℕ) : ℚ)) :=
  (c2_amended 300 2 (by decide) (by decide)).2 (by decide)

/-- Claim C3 (counterexample): a group record with name length 1 and offset
field `-10` makes the computed skip `2 + |L| + next_offset = -7` negative;
Python slice semantics then resume the scan 7 bytes before the *end* of the
remaining buffer (absolute position 6 here), not at the claimed absolute
position `record_start + 2 + |L| + next_offset = -7`. -/
theorem c3_counterexample :
    dirStep emptyDir [1, 255, 65, 246, 255, 0, 7, 7, 7, 7, 7, 7, 7] =
      some (.more ⟨[⟨some [65], some [], []⟩], [(.nm [65], 0), (.id 1, 0)]⟩
        [7, 7, 7, 7, 7, 7, 7]) ∧
    2 + ((int8 1).natAbs : ℤ) + int16LE 246 255 = -7 ∧
    ([7, 7, 7, 7, 7, 7, 7] : List ℕ) ≠
      ([1, 255, 65, 246, 255, 0, 7, 7, 7, 7, 7, 7, 7] : List ℕ).drop
        ((-7 : ℤ)).toNat := by
  refine ⟨by decide, by decide, by decide⟩

/-- Claim C3 (amended): whenever the record's processing completes and the
computed skip `2 + |L| + next_offset` is non-negative, the decoder resumes
the outer scan exactly that many bytes past the record start — independent
of how many bytes the payload parse consumed; for a negative computed skip
Python slice semantics resume counting from the end of the buffer instead. -/
theorem c3_amended (st st1 : DirState) (b0 b1 o0 o1 : ℕ) (rest tail bs1 : List ℕ)
    (hdrop : rest.drop (int8 b0).natAbs = o0 :: o1 :: tail)
    (h : dirStep st (b0 :: b1 :: rest) = some (.more st1 bs1))
    (hk : 0 ≤ 2 + ((int8 b0).natAbs : ℤ) + int16LE o0 o1) :
    bs1 = (b0 :: b1 :: rest).drop (2 + ((int8 b0).natAbs : ℤ) + int16LE o0 o1).toNat := by
  simp only [dirStep] at h
  simp only [hdrop] at h
  split at h
  · simp at h
  · split at h
    · split at h
      · simp at h
      · simp only [Option.some.injEq, DirCont.more.injEq] at h
        rw [← h.2]
        unfold pySlice
        rw [if_pos hk]
    · split at h
      · simp at h
      · split at h
        · simp only [Option.some.injEq, DirCont.more.injEq] at h
          rw [← h.2]
          unfold pySlice
          rw [if_pos hk]
        · split at h
          · simp at h
          · simp only [Option.some.injEq, DirCont.more.injEq] at h
            rw [← h.2]
            unfold pySlice
            rw [if_pos hk]

/-- Witness for the amended claim C3 on a concrete parameter record whose
total size is 11, so the scan resumes at the end of the buffer. -/
theorem c3_amended_witness :
    ([] : List ℕ) = ([2, 1, 80, 65, 7, 0, 2, 0, 9, 9, 0] : List ℕ).drop
      (2 + (((int8 2).natAbs : ℤ)) + int16LE 7 0).toNat :=
  c3_amended emptyDir
    ⟨[⟨none, none, [([80, 65], ⟨[80, 65], [], 2, [], [9, 9]⟩)]⟩], [(.id 1, 0)]⟩
    2 1 7 0 [80, 65, 7, 0, 2, 0, 9, 9, 0] [2, 0, 9, 9, 0] []
    (by decide) (by decide) (by decide)

/-- Claim C4 (code_bug evidence): the per-frame analog emission writes the
empty sequence even for a frame whose analog block is `[1]` — the fresh
`array.array` bound to the name `analog` shadows the frame's analog data
and is extended with itself — so no analog value is written verbatim. -/
theorem c4_analog_bug :
    writtenAnalog [1] = [] ∧ writeFrameF (-1) [] [1] = [] ∧
    ([1] : List ℚ) ≠ [] := by
  exact ⟨rfl, rfl, by simp⟩

set_option maxRecDepth 8000 in
/-- Claim C5 (code_bug evidence): a store holding one group of binary size
300 (name `POINT`, 290-byte description, no parameters), dual-indexed under
id 1 and its name as `add_group` always does, needs
`4 + 300 = 304 ≤ 512` bytes — one block — yet `parameter_blocks` returns 2,
because iterating `groups.values()` counts the group once per key.  The
encoder's `header.data_block = 2 + parameter_blocks()` assignment itself is
confirmed at this input. -/
theorem c5_blocks_bug :
    addGroup emptyDir 1 [80, 79, 73, 78, 84] (List.replicate 290 120) =
      .ok ⟨[⟨some [80, 79, 73, 78, 84], some (List.replicate 290 120), []⟩],
           [(.nm [80, 79, 73, 78, 84], 0), (.id 1, 0)]⟩ ∧
    parameter_blocks
      ⟨[⟨some [80, 79, 73, 78, 84], some (List.replicate 290 120), []⟩],
       [(.nm [80, 79, 73, 78, 84], 0), (.id 1, 0)]⟩ = 2 ∧
    dirSizeOnce
      ⟨[⟨some [80, 79, 73, 78, 84], some (List.replicate 290 120), []⟩],
       [(.nm [80, 79, 73, 78, 84], 0), (.id 1, 0)]⟩ = 304 ∧
    (304 : ℕ) ≤ 512 * 1 ∧
    writerDataBlock
      ⟨[⟨some [80, 79, 73, 78, 84], some (List.replicate 290 120), []⟩],
       [(.nm [80, 79, 73, 78, 84], 0), (.id 1, 0)]⟩ =
      2 + parameter_blocks
      ⟨[⟨some [80, 79, 73, 78, 84], some (List.replicate 290 120), []⟩],
       [(.nm [80, 79, 73, 78, 84], 0), (.id 1, 0)]⟩ := by
  refine ⟨rfl, by decide, by decide, by decide, rfl⟩

/-- Claim C6: reading a 512-byte header whose magic byte at offset 1 is not
80 fails with the format error carrying that byte, and consumes exactly the
512 header bytes — any following bytes are left unread. -/
theorem c6_header_magic (bs extra : List ℕ) (hlen : bs.length = 512)
    (hm : bs.getD 1 0 ≠ 80) :
    headerRead (bs ++ extra) =
      (some (.error (.badMagic (bs.getD 1 0))), extra) := by
  have h1 : (bs ++ extra).getD 1 0 = bs.getD 1 0 :=
    List.getD_append _ _ _ _ (by omega)
  unfold headerRead
  rw [if_pos (by rw [List.length_append, hlen]; omega), h1, if_neg hm,
    List.drop_left' hlen]

set_option maxRecDepth 8000 in
/-- Witness for claim C6: an all-zero 512-byte header followed by 3 extra
bytes fails the magic check and leaves the extra bytes unread. -/
theorem c6_header_magic_witness :
    headerRead (List.replicate 512 0 ++ [1, 2, 3]) =
      (some (.error (.badMagic ((List.replicate 512 0).getD 1 0))), [1, 2, 3]) :=
  c6_header_magic (List.replicate 512 0) [1, 2, 3] (by simp)
    (by rw [List.getD_eq_getElem?_getD, List.getElem?_replicate]; simp)

/-- Claim C7: decoding a directory in which two parameter records under
group id `g` precede the group record for `g` produces a single shared
group — created as a placeholder when the first parameter arrived — that
holds both parameters and, once the group record is processed, carries the
record's name and description and is indexed both by id and by name. -/
theorem c7_out_of_order (g p1 p2 p3 p4 d1 d2 : ℕ) (hg1 : 1 ≤ g) (hg2 : g ≤ 127) :
    runDir 10 emptyDir (c7bytes g p1 p2 p3 p4 d1 d2) =
      some (c7final g p1 p2 p3 p4 d1 d2) ∧
    (c7final g p1 p2 p3 p4 d1 d2).arena.length = 1 ∧
    lookupKey (c7final g p1 p2 p3 p4 d1 d2) (.id (g : ℤ)) = some 0 ∧
    lookupKey (c7final g p1 p2 p3 p4 d1 d2) (.nm [71, 82, 80]) = some 0 ∧
    ((c7final g p1 p2 p3 p4 d1 d2).arena.getD 0 default).name = some [71, 82, 80] ∧
    ((c7final g p1 p2 p3 p4 d1 d2).arena.getD 0 default).desc = some [d1, d2] ∧
    assocGet ((c7final g p1 p2 p3 p4 d1 d2).arena.getD 0 default).params [80, 65] =
      some ⟨[80, 65], [], 2, [], [p1, p2]⟩ ∧
    assocGet ((c7final g p1 p2 p3 p4 d1 d2).arena.getD 0 default).params [80, 66] =
      some ⟨[80, 66], [], 2, [], [p3, p4]⟩ := by
  have hg128 : g < 128 := by omega
  have e2 : int8 g = (g : ℤ) := by unfold int8; rw [if_pos hg128]
  have h2 : int8 2 = 2 := rfl
  have h3 : int8 3 = 3 := rfl
  have e3 : int8 (256 - g) = -(g : ℤ) := by
    unfold int8; rw [if_neg (by omega)]; omega
  have habs : |(-(g : ℤ))| = (g : ℤ) := by
    rw [abs_neg]; exact abs_of_nonneg (by omega)
  have hcond : ¬((g : ℤ) = 0 ∨ (2 : ℤ) = 0) := by omega
  have hcond3 : ¬(-(g : ℤ) = 0 ∨ (3 : ℤ) = 0) := by omega
  have s1 : dirStep emptyDir (c7bytes g p1 p2 p3 p4 d1 d2) = some (.more
      ⟨[⟨none, none, [([80, 65], ⟨[80, 65], [], 2, [], [p1, p2]⟩)]⟩], [(.id (g : ℤ), 0)]⟩
      [2, g, 80, 66, 7, 0, 2, 0, p3, p4, 0, 3, 256 - g, 71, 82, 80, 5, 0, 2, d1, d2, 0, 0]) := by
    simp only [c7bytes, dirStep, e2, h2]
    rw [if_neg hcond]
    norm_num [paramRead, setdefaultGroup, lookupKey, assocGet, updateGroup, Group.add_param,
      assocSet, upperBytes, upperByte, keysSet, pySlice, int16LE, emptyDir, h2,
      (show ((2:ℤ)).natAbs = 2 from rfl), (show Int.toNat 11 = 11 from rfl),
      (by omega : (0:ℤ) < (g:ℤ))]
  have s2 : dirStep
      ⟨[⟨none, none, [([80, 65], ⟨[80, 65], [], 2, [], [p1, p2]⟩)]⟩], [(.id (g : ℤ), 0)]⟩
      [2, g, 80, 66, 7, 0, 2, 0, p3, p4, 0, 3, 256 - g, 71, 82, 80, 5, 0, 2, d1, d2, 0, 0] =
    some (.more
      ⟨[⟨none, none, [([80, 65], ⟨[80, 65], [], 2, [], [p1, p2]⟩),
                      ([80, 66], ⟨[80, 66], [], 2, [], [p3, p4]⟩)]⟩], [(.id (g : ℤ), 0)]⟩
      [3, 256 - g, 71, 82, 80, 5, 0, 2, d1, d2, 0, 0]) := by
    simp only [dirStep, e2, h2]
    rw [if_neg hcond]
    norm_num [paramRead, setdefaultGroup, lookupKey, assocGet, updateGroup, Group.add_param,
      assocSet, upperBytes, upperByte, keysSet, pySlice, int16LE, h2,
      (show ((2:ℤ)).natAbs = 2 from rfl), (show Int.toNat 11 = 11 from rfl),
      (by omega : (0:ℤ) < (g:ℤ))]
  have s3 : dirStep
      ⟨[⟨none, none, [([80, 65], ⟨[80, 65], [], 2, [], [p1, p2]⟩),
                      ([80, 66], ⟨[80, 66], [], 2, [], [p3, p4]⟩)]⟩], [(.id (g : ℤ), 0)]⟩
      [3, 256 - g, 71, 82, 80, 5, 0, 2, d1, d2, 0, 0] =
    some (.more (c7final g p1 p2 p3 p4 d1 d2) [0, 0]) := by
    simp only [dirStep, e3, h3, c7final]
    rw [if_neg hcond3]
    norm_num [lookupKey, assocGet, updateGroup, keysSet, assocSet, upperBytes, upperByte,
      pySlice, int16LE, habs, (show ((3:ℤ)).natAbs = 3 from rfl),
      (show Int.toNat 10 = 10 from rfl), (by omega : ¬((0:ℤ) < -(g:ℤ))),
      (by omega : ¬((g:ℤ) < 0)),
      (show GKey.id (g:ℤ) ≠ GKey.nm [71, 82, 80] from fun hx => GKey.noConfusion hx)]
  have s4 : dirStep (c7final g p1 p2 p3 p4 d1 d2) [0, 0] =
      some (.halt (c7final g p1 p2 p3 p4 d1 d2)) := rfl
  refine ⟨by simp only [runDir, s1, s2, s3, s4], rfl, ?h1, ?h2, rfl, rfl, ?h3, ?h4⟩
  · simp [c7final, lookupKey, assocGet]
  · simp [c7final, lookupKey, assocGet]
  · simp [c7final, assocGet]
  · simp [c7final, assocGet]

/-- Witness for claim C7 at group id 5 with concrete payload and
description bytes. -/
theorem c7_out_of_order_witness :
    runDir 10 emptyDir (c7bytes 5 1 2 3 4 9 8) = some (c7final 5 1 2 3 4 9 8) ∧
    (c7final 5 1 2 3 4 9 8).arena.length = 1 ∧
    lookupKey (c7final 5 1 2 3 4 9 8) (.id ((5 : ℕ) : ℤ)) = some 0 ∧
    lookupKey (c7final 5 1 2 3 4 9 8) (.nm [71, 82, 80]) = some 0 ∧
    ((c7final 5 1 2 3 4 9 8).arena.getD 0 default).name = some [71, 82, 80] ∧
    ((c7final 5 1 2 3 4 9 8).arena.getD 0 default).desc = some [9, 8] ∧
    assocGet ((c7final 5 1 2 3 4 9 8).arena.getD 0 default).params [80, 65] =
      some ⟨[80, 65], [], 2, [], [1, 2]⟩ ∧
    assocGet ((c7final 5 1 2 3 4 9 8).arena.getD 0 default).params [80, 66] =
      some ⟨[80, 66], [], 2, [], [3, 4]⟩ :=
  c7_out_of_order 5 1 2 3 4 9 8 (by decide) (by decide)

/-- Claim C8: once the point-count, scale-factor and frame-rate checks have
passed (so the directory's `POINT:RATE` equals `header.frame_rate`, which
is nonzero) and the analog parameters are present, `check_metadata` fails
with the inconsistent-metadata error carrying both conflicting values
exactly when `header.analog_count` differs from
`ANALOG:USED × (ANALOG:RATE / header.frame_rate)`, and never raises the
analog-count error when they agree. -/
theorem c8_analog_check (h : HeaderView) (d : DirView) (au : ℕ) (ar : ℚ)
    (hpu : d.point_used = some h.point_count)
    (hsc : d.point_scale = some h.scale_factor)
    (hfr : d.point_rate = some h.frame_rate)
    (hau : d.analog_used = some au)
    (har : d.analog_rate = some ar)
    (hf0 : h.frame_rate ≠ 0) :
    ((h.analog_count : ℚ) ≠ (au : ℚ) * (ar / h.frame_rate) →
      checkMetadata h d =
        some (.error (.analogCount h.analog_count ((au : ℚ) * ar / h.frame_rate)))) ∧
    ((h.analog_count : ℚ) = (au : ℚ) * (ar / h.frame_rate) →
      ∀ a b, checkMetadata h d ≠ some (.error (.analogCount a b))) := by
  unfold checkMetadata
  simp only [hpu, hsc, hfr, hau, har, Option.getD_some]
  rw [if_neg (show ¬(h.point_count ≠ h.point_count) by simp),
    if_neg (show ¬(h.scale_factor ≠ h.scale_factor) by simp),
    if_neg (show ¬(h.frame_rate ≠ h.frame_rate) by simp),
    if_neg hf0]
  constructor
  · intro hne
    rw [if_pos (by rw [mul_div_assoc]; exact hne)]
  · intro heq a b
    rw [if_neg (by rw [mul_div_assoc]; exact not_not_intro heq)]
    rcases hds : d.point_data_start with _ | ds <;> simp only [hds]
    · simp
    · by_cases hdb : h.data_block = ds
      · rw [if_neg (not_not_intro hdb)]
        simp
      · rw [if_pos hdb]
        simp

/-- Witness for claim C8: header analog count 5 against directory values
`ANALOG:USED = 2`, `ANALOG:RATE = 120`, point rate 60 — the reconciled
per-frame count is 4, so the check fails carrying (5, 4). -/
theorem c8_analog_check_witness :
    checkMetadata ⟨1, -1, 60, 5, 7⟩
        ⟨some 1, some (-1), some 60, some 2, some 120, some 7⟩ =
      some (.error (.analogCount 5 ((2 : ℚ) * 120 / 60))) :=
  (c8_analog_check ⟨1, -1, 60, 5, 7⟩
      ⟨some 1, some (-1), some 60, some 2, some 120, some 7⟩ 2 120
      rfl rfl rfl rfl rfl (by norm_num)).1 (by norm_num)

/-- Claim C9: `add_group` fails with a `KeyError` when the numeric id or
the upper-cased name is already a key of the store (the checks precede any
insertion, so the mapping is untouched), and otherwise inserts exactly one
new group, reachable under both the id key and the upper-cased name key. -/
theorem c9_add_group (st : DirState) (gid : ℤ) (name desc : List ℕ) :
    ((lookupKey st (.id gid)).isSome →
      addGroup st gid name desc = .error (.id gid)) ∧
    (lookupKey st (.id gid) = none →
      (lookupKey st (.nm (upperBytes name))).isSome →
      addGroup st gid name desc = .error (.nm (upperBytes name))) ∧
    (lookupKey st (.id gid) = none →
      lookupKey st (.nm (upperBytes name)) = none →
      ∃ st1, addGroup st gid name desc = .ok st1 ∧
        st1.arena = st.arena ++ [⟨some (upperBytes name), some desc, []⟩] ∧
        lookupKey st1 (.id gid) = some st.arena.length ∧
        lookupKey st1 (.nm (upperBytes name)) = some st.arena.length) := by
  refine ⟨fun hid => ?g1, fun hid hnm => ?g2, fun hid hnm => ?g3⟩
  · unfold addGroup
    rw [if_pos hid]
  · unfold addGroup
    rw [if_neg (by rw [hid]; simp), if_pos hnm]
  · refine ⟨⟨st.arena ++ [⟨some (upperBytes name), some desc, []⟩],
      assocSet (assocSet st.keys (.nm (upperBytes name)) st.arena.length)
        (.id gid) st.arena.length⟩, ?h1, rfl, ?h2, ?h3⟩
    · unfold addGroup
      rw [if_neg (by rw [hid]; simp), if_neg (by rw [hnm]; simp)]
    · exact assocGet_set_self _ _ _
    · unfold lookupKey
      rw [assocGet_set_ne _ _ _ _ (fun hx => GKey.noConfusion hx)]
      exact assocGet_set_self _ _ _

/-- Witness for claim C9: adding group id 1 named `pA` to an empty store
succeeds and indexes the single new group under id 1 and name `PA`. -/
theorem c9_add_group_witness :
    ∃ st1, addGroup emptyDir 1 [112, 65] [100] = .ok st1 ∧
      st1.arena = emptyDir.arena ++ [⟨some (upperBytes [112, 65]), some [100], []⟩] ∧
      lookupKey st1 (.id 1) = some emptyDir.arena.length ∧
      lookupKey st1 (.nm (upperBytes [112, 65])) = some emptyDir.arena.length :=
  (c9_add_group emptyDir 1 [112, 65] [100]).2.2 (by decide) (by decide)

/-- Claim C10: every valid decoded point (4th raw value `> -1`) has a
camera count of at most 8: the 4th value is reinterpreted as an unsigned
16-bit integer, so bit position 16 — the topmost of the nine candidate
camera bits — can never be set. -/
theorem c10_camera_bound (raw scale : ℚ) (h : -1 < raw) :
    (decodeFourth raw scale).2 ≤ 8 := by
  unfold decodeFourth
  rw [if_pos h]
  show ((camSum (npUint16 raw) : ℕ) : ℚ) ≤ 8
  have hlt : npUint16 raw < 65536 := by
    unfold npUint16
    have ha := Int.emod_nonneg (ratTrunc raw) (by norm_num : (65536 : ℤ) ≠ 0)
    have hb := Int.emod_lt_of_pos (ratTrunc raw) (by norm_num : (0 : ℤ) < 65536)
    omega
  exact_mod_cast camSum_le_eight _ hlt

/-- Witness for claim C10 at the valid stored value 3. -/
theorem c10_camera_bound_witness : (decodeFourth 3 1).2 ≤ 8 :=
  c10_camera_bound 3 1 (by norm_num)

end C3D
